import Mathlib

/-!
Verification development for the `criminal_analysis` data pipeline
(`src/preprocess.py`, `src/make_tables.py`, `src/visualize.py`).

The pandas programs are shallowly embedded: a DataFrame becomes a list of
row structures, a CSV/Excel cell becomes `Option String` (`none` models a
null/NaN cell, `some s` models a cell whose `str()` rendering is `s`),
counts become `Int`, and ratios become `Rat`.  String operations used by
the source (substring search, `str.strip`, `str.replace`, regex extraction
of digits) are implemented structurally on `List Char` so that every
definition evaluates by kernel reduction.
-/

namespace CriminalAnalysis

/-! ## Character and string utilities -/

/-- Decimal digit test on code points, modelling `\d` for ASCII digits. -/
def isDigitB (c : Char) : Bool := 48 ≤ c.toNat && c.toNat ≤ 57

/-- Whitespace test modelling Python `str.strip`'s default character set. -/
def isWsB (c : Char) : Bool :=
  c = ' ' || c = '\t' || c = '\n' || c = '\r'

/-- `listStarts pat l` holds when `pat` is an initial segment of `l`. -/
def listStarts : List Char → List Char → Bool
  | [], _ => true
  | _ :: _, [] => false
  | p :: ps, c :: cs => p == c && listStarts ps cs

/-- Substring search: does `pat` occur contiguously inside `l`?
Models Python's `in` operator and `pandas.Series.str.contains` with a
literal pattern. -/
def hasSub (pat : List Char) : List Char → Bool
  | [] => listStarts pat []
  | c :: cs => listStarts pat (c :: cs) || hasSub pat cs

/-- Substring search on `String`s. -/
def strHasSub (s pat : String) : Bool := hasSub pat.data s.data

/-- `strStarts s pat` models Python `s.startswith(pat)`. -/
def strStarts (s pat : String) : Bool := listStarts pat.data s.data

/-- ASCII lower-casing of one character, modelling `re.IGNORECASE` folding
for the ASCII patterns used by the source. -/
def lowerChar (c : Char) : Char :=
  if 65 ≤ c.toNat && c.toNat ≤ 90 then Char.ofNat (c.toNat + 32) else c

/-- Case-insensitive substring search for an all-lowercase ASCII pattern,
modelling `Series.str.contains(pat, case=False)`. -/
def strHasSubCI (s pat : String) : Bool :=
  hasSub pat.data (s.data.map lowerChar)

/-- Python `str.strip()`: drop leading and trailing whitespace. -/
def stripChars (l : List Char) : List Char :=
  ((l.dropWhile isWsB).reverse.dropWhile isWsB).reverse

/-- Remove every occurrence of `pat` (non-empty) from `l`, scanning left to
right; models Python `str.replace(pat, "")`. -/
def removeSub (pat : List Char) : List Char → List Char
  | [] => []
  | c :: cs =>
    if listStarts pat (c :: cs) && !pat.isEmpty then
      removeSub pat (List.drop pat.length (c :: cs))
    else
      c :: removeSub pat cs
termination_by l => l.length
decreasing_by
  · simp only [List.length_drop]
    cases pat with
    | nil => simp at *
    | cons p ps => simp [List.length_cons]; omega
  · simp [List.length_cons]

/-- `str.replace` on `String`s, removal case. -/
def strRemove (s pat : String) : String := ⟨removeSub pat.data s.data⟩

/-- The `str()` rendering of a possibly-null cell: `NaN` prints as `"nan"`. -/
def strOfCell : Option String → String
  | none => "nan"
  | some s => s

/-- Value of a digit character. -/
def digitVal (c : Char) : Nat := c.toNat - 48

/-- Numeric value of a digit run, most significant first. -/
def digitsToNat (l : List Char) : Nat :=
  l.foldl (fun acc c => 10 * acc + digitVal c) 0

/-- Split off the maximal leading digit run. -/
def spanDigits (l : List Char) : List Char × List Char :=
  (l.takeWhile isDigitB, l.dropWhile isDigitB)

/-- Value of a regex match of `\d+\.?\d*` beginning at the given characters
(which must start with a digit): integer part, then an optional fractional
part after a dot. -/
def decimalValue (l : List Char) : Rat :=
  let ds := (spanDigits l).1
  match (spanDigits l).2 with
  | '.' :: rest =>
    let fs := (spanDigits rest).1
    (digitsToNat ds : Rat) + (digitsToNat fs : Rat) / (10 ^ fs.length : Nat)
  | _ => (digitsToNat ds : Rat)

/-- First match of `Series.str.extract(r"(\d+\.?\d*)")` followed by
`pd.to_numeric`: scan for the first digit and read the greedy decimal
number starting there; `none` when the string holds no digit. -/
def extractDecimal (s : String) : Option Rat := go s.data
where
  go : List Char → Option Rat
    | [] => none
    | c :: cs => if isDigitB c then some (decimalValue (c :: cs)) else go cs

/-- First run of four consecutive digits in a string, modelling
`re.findall(r"\d{4}", s)[0]`. -/
def firstFourDigits (s : String) : Option String := go s.data
where
  go : List Char → Option String
    | [] => none
    | c :: cs =>
      match (c :: cs).take 4 with
      | [a, b, d, e] =>
        if isDigitB a && isDigitB b && isDigitB d && isDigitB e then
          some ⟨[a, b, d, e]⟩
        else go cs
      | _ => none

/-- Sign/digits part of `pd.to_numeric` on a trimmed string:
`[+|-] digits [. digits]` or `[+|-] . digits`, requiring at least one
digit; commonly-seen numeric formats of the data files. -/
def parseUnsigned (l : List Char) : Option Rat :=
  let ds := (spanDigits l).1
  match (spanDigits l).2 with
  | '.' :: rest =>
    let fs := (spanDigits rest).1
    if (spanDigits rest).2 = [] && (ds ≠ [] || fs ≠ []) then
      some ((digitsToNat ds : Rat) + (digitsToNat fs : Rat) / (10 ^ fs.length : Nat))
    else none
  | [] => if ds ≠ [] then some (digitsToNat ds : Rat) else none
  | _ => none

/-- `pd.to_numeric(s, errors="coerce")` on a string cell: trim whitespace,
optional sign, decimal digits with optional fractional part; `none` models
the coerced `NaN`. -/
def parseNumeric (s : String) : Option Rat :=
  match stripChars s.data with
  | '-' :: rest => (parseUnsigned rest).map (fun q => -q)
  | '+' :: rest => parseUnsigned rest
  | l => parseUnsigned l

/-- Truncation toward zero, modelling `float → int` conversion of
`astype(int)`. -/
def ratTrunc (q : Rat) : Int := q.num / (q.den : Int)

/-- `pd.to_numeric` on a possibly-null cell (`none` stays `NaN`). -/
def toNumericCell (c : Option String) : Option Rat :=
  match c with
  | none => none
  | some s => parseNumeric s

/-- `pd.to_numeric(col, errors="coerce").fillna(0).astype(int)` on one
cell: its parsed numeric value truncated to an integer, or `0` when the
cell is not numeric. -/
def countOfCell (c : Option String) : Int :=
  match toNumericCell c with
  | none => 0
  | some q => ratTrunc q

/-- Join the given character lists with a single separator between
consecutive elements, modelling Python `sep.join(...)`. -/
def joinWith (sep : List Char) : List (List Char) → List Char
  | [] => []
  | [x] => x
  | x :: y :: rest => x ++ sep ++ joinWith sep (y :: rest)

/-! ## Ordering on strings by code point, and a sorting function

`pandas` sorts string keys by code-point lexicographic order and sorts
numeric keys by value.  `sortLe` is a sort (insertion sort) agreeing with
the given total preorder; since `sort_values`/`groupby` only guarantee an
order consistent with the keys, any such sort is a faithful model. -/

/-- Strict code-point lexicographic order on character lists. -/
def charsLt : List Char → List Char → Bool
  | [], [] => false
  | [], _ :: _ => true
  | _ :: _, [] => false
  | a :: as, b :: bs =>
    if a.toNat < b.toNat then true
    else if b.toNat < a.toNat then false
    else charsLt as bs

/-- Non-strict code-point lexicographic order on character lists. -/
def charsLe : List Char → List Char → Bool
  | [], _ => true
  | _ :: _, [] => false
  | a :: as, b :: bs =>
    if a.toNat < b.toNat then true
    else if b.toNat < a.toNat then false
    else charsLe as bs

/-- Strict code-point order on strings (the order pandas uses). -/
def strLt (s t : String) : Bool := charsLt s.data t.data

/-- Non-strict code-point order on strings. -/
def strLe (s t : String) : Bool := charsLe s.data t.data

theorem charsLt_trans : ∀ l₁ l₂ l₃, charsLt l₁ l₂ → charsLt l₂ l₃ → charsLt l₁ l₃
  | [], [], _, h, _ => by simp [charsLt] at h
  | [], _ :: _, [], _, h => by simp [charsLt] at h
  | [], _ :: _, _ :: _, _, _ => by simp [charsLt]
  | _ :: _, [], _, h, _ => by simp [charsLt] at h
  | _ :: _, _ :: _, [], _, h => by simp [charsLt] at h
  | a :: as, b :: bs, c :: cs, h₁, h₂ => by
    simp only [charsLt] at h₁ h₂ ⊢
    by_cases hab : a.toNat < b.toNat
    · by_cases hbc : b.toNat < c.toNat
      · simp [Nat.lt_trans hab hbc]
      · simp only [hbc, if_false] at h₂
        by_cases hcb : c.toNat < b.toNat
        · simp [hcb] at h₂
        · simp only [hcb, if_false] at h₂
          have hac : a.toNat < c.toNat := by omega
          simp [hac]
    · simp only [hab, if_false] at h₁
      by_cases hba : b.toNat < a.toNat
      · simp [hba] at h₁
      · simp only [hba, if_false] at h₁
        by_cases hbc : b.toNat < c.toNat
        · have hac : a.toNat < c.toNat := by omega
          simp [hac]
        · simp only [hbc, if_false] at h₂
          by_cases hcb : c.toNat < b.toNat
          · simp [hcb] at h₂
          · simp only [hcb, if_false] at h₂
            have hac : ¬ a.toNat < c.toNat := by omega
            have hca : ¬ c.toNat < a.toNat := by omega
            simp only [hac, hca, if_false]
            exact charsLt_trans as bs cs h₁ h₂

theorem charsLt_asymm : ∀ l₁ l₂, charsLt l₁ l₂ → charsLt l₂ l₁ = false
  | [], [], h => by simp [charsLt] at h
  | [], _ :: _, _ => by simp [charsLt]
  | _ :: _, [], h => by simp [charsLt] at h
  | a :: as, b :: bs, h => by
    simp only [charsLt] at h ⊢
    by_cases hab : a.toNat < b.toNat
    · have hba : ¬ b.toNat < a.toNat := by omega
      simp [hba, hab]
    · simp only [hab, if_false] at h
      by_cases hba : b.toNat < a.toNat
      · simp [hba] at h
      · simp only [hba, if_false] at h ⊢
        simp only [hab, if_false]
        exact charsLt_asymm as bs h

theorem charToNat_inj {a b : Char} (h : a.toNat = b.toNat) : a = b := by
  rw [← Char.ofNat_toNat a, ← Char.ofNat_toNat b, h]

theorem charsLt_trichotomy : ∀ l₁ l₂, charsLt l₁ l₂ ∨ l₁ = l₂ ∨ charsLt l₂ l₁
  | [], [] => Or.inr (Or.inl rfl)
  | [], _ :: _ => Or.inl (by simp [charsLt])
  | _ :: _, [] => Or.inr (Or.inr (by simp [charsLt]))
  | a :: as, b :: bs => by
    rcases Nat.lt_trichotomy a.toNat b.toNat with h | h | h
    · exact Or.inl (by simp [charsLt, h])
    · have hab : a = b := charToNat_inj h
      rcases charsLt_trichotomy as bs with h' | h' | h'
      · exact Or.inl (by simp [charsLt, hab, h'])
      · exact Or.inr (Or.inl (by rw [hab, h']))
      · exact Or.inr (Or.inr (by simp [charsLt, hab, h']))
    · exact Or.inr (Or.inr (by simp [charsLt, h]))

theorem strLt_trans {s t u : String} (h₁ : strLt s t) (h₂ : strLt t u) : strLt s u :=
  charsLt_trans _ _ _ h₁ h₂

theorem strLt_asymm {s t : String} (h : strLt s t) : strLt t s = false :=
  charsLt_asymm _ _ h

theorem strLt_trichotomy (s t : String) : strLt s t ∨ s = t ∨ strLt t s := by
  rcases charsLt_trichotomy s.data t.data with h | h | h
  · exact Or.inl h
  · exact Or.inr (Or.inl (by cases s; cases t; exact congrArg String.mk h))
  · exact Or.inr (Or.inr h)

/-- Insert into a list in front of the first element `a` may precede. -/
def insertLe {α : Type} (le : α → α → Bool) (a : α) : List α → List α
  | [] => [a]
  | b :: bs => if le a b then a :: b :: bs else b :: insertLe le a bs

/-- Insertion sort by the comparator `le`. -/
def sortLe {α : Type} (le : α → α → Bool) : List α → List α
  | [] => []
  | a :: as => insertLe le a (sortLe le as)

theorem insertLe_perm {α : Type} (le : α → α → Bool) (a : α) :
    ∀ l : List α, (insertLe le a l).Perm (a :: l)
  | [] => List.Perm.refl _
  | b :: bs => by
    simp only [insertLe]
    by_cases h : le a b
    · simp [h]
    · simp only [h, if_neg, Bool.false_eq_true, if_false]
      exact ((insertLe_perm le a bs).cons b).trans (List.Perm.swap a b bs)

theorem sortLe_perm {α : Type} (le : α → α → Bool) :
    ∀ l : List α, (sortLe le l).Perm l
  | [] => List.Perm.refl _
  | a :: as => (insertLe_perm le a (sortLe le as)).trans ((sortLe_perm le as).cons a)

theorem mem_insertLe {α : Type} {le : α → α → Bool} {a x : α} {l : List α} :
    x ∈ insertLe le a l ↔ x = a ∨ x ∈ l := by
  constructor
  · intro h
    have := (insertLe_perm le a l).mem_iff.mp h
    simpa using this
  · intro h
    apply (insertLe_perm le a l).mem_iff.mpr
    simpa using h

theorem pairwise_insertLe {α : Type} {le : α → α → Bool}
    (htot : ∀ a b, le a b || le b a)
    (htr : ∀ a b c, le a b → le b c → le a c) {a : α} :
    ∀ {l : List α}, l.Pairwise (fun x y => le x y = true) →
      (insertLe le a l).Pairwise (fun x y => le x y = true) := by
  intro l
  induction l with
  | nil => intro _; simp [insertLe]
  | cons b bs ih =>
    intro h
    rw [List.pairwise_cons] at h
    simp only [insertLe]
    by_cases hab : le a b
    · rw [if_pos hab]
      refine List.Pairwise.cons ?_ (List.Pairwise.cons h.1 h.2)
      intro y hy
      rcases List.mem_cons.mp hy with h' | hy
      · rw [h']; exact hab
      · exact htr a b y hab (h.1 y hy)
    · rw [if_neg hab]
      refine List.Pairwise.cons ?_ (ih h.2)
      intro y hy
      rcases mem_insertLe.mp hy with h' | hy
      · rw [h']
        rcases Bool.or_eq_true_iff.mp (htot a b) with h'' | h''
        · exact absurd h'' hab
        · exact h''
      · exact h.1 y hy

/-- The insertion sort is pairwise ordered for any total, transitive
comparator. -/
theorem pairwise_sortLe {α : Type} {le : α → α → Bool}
    (htot : ∀ a b, le a b || le b a)
    (htr : ∀ a b c, le a b → le b c → le a c) :
    ∀ l : List α, (sortLe le l).Pairwise (fun x y => le x y = true)
  | [] => by simp [sortLe]
  | a :: as => pairwise_insertLe htot htr (pairwise_sortLe htot htr as)

theorem mem_sortLe {α : Type} {le : α → α → Bool} {x : α} {l : List α} :
    x ∈ sortLe le l ↔ x ∈ l := (sortLe_perm le l).mem_iff

/-! ## Data model and embedding of `src/preprocess.py`

A raw wide table holds its value-column names and its data rows; each row
holds the (string) id cells and one `Option String` cell per value column.
`melt(id_vars, value_vars)` stacks the value columns one after another
(column-major), which the embeddings below spell out with
`List.range ... |>.flatMap`. -/

/-- A raw cell: `none` is a null/NaN cell, `some s` a cell rendering as
`s`. -/
abbrev Cell := Option String

/-- A data row of `prosecution_reoffend_period_type_2017.csv`: the id cell
of column 범죄분류 and the cells of the value columns, by position. -/
structure ProsRawRow where
  crimeCell : String
  vals : List Cell
deriving DecidableEq, Repr

/-- The parsed prosecution CSV: names of the columns other than 범죄분류,
and the data rows. -/
structure ProsRaw where
  valueCols : List String
  rows : List ProsRawRow
deriving DecidableEq, Repr

/-- `Series.str.extract(r"(?P<recid_type>동종재범|이종재범)_(?P<period>.+)")`
on one metric name: search for the first occurrence of either literal
followed by `_` and at least one further character; the two capture
groups, or `none` on no match. -/
def extractRecid (s : String) : Option (String × String) := go s.data
where
  go : List Char → Option (String × String)
    | [] => none
    | c :: cs =>
      if listStarts "동종재범_".data (c :: cs) && decide ((c :: cs).length > "동종재범_".data.length) then
        some ("동종재범", ⟨(c :: cs).drop "동종재범_".data.length⟩)
      else if listStarts "이종재범_".data (c :: cs) && decide ((c :: cs).length > "이종재범_".data.length) then
        some ("이종재범", ⟨(c :: cs).drop "이종재범_".data.length⟩)
      else go cs

/-- An output row of `clean_prosecution_period_type`: `recid`/`period` are
`none` where the regex extraction produced NaN. -/
structure ProsOutRow where
  crime : String
  recid : Option String
  period : Option String
  cnt : Int
deriving DecidableEq, Repr

/-- `clean_prosecution_period_type`: melt the value columns over the id
column 범죄분류, extract `recid_type`/`period` from the former column
name, and coerce the cell to an integer count with `NaN ↦ 0`. -/
def cleanProsecutionPeriodType (p : ProsRaw) : List ProsOutRow :=
  (List.range p.valueCols.length).flatMap fun j =>
    p.rows.map fun r =>
      let metric := p.valueCols.getD j ""
      let rp := extractRecid metric
      { crime := r.crimeCell
        recid := rp.map (fun x => x.1)
        period := rp.map (fun x => x.2)
        cnt := countOfCell (r.vals.getD j none) }

/-- A data row of the two police CSVs: id cells 범죄대분류/범죄중분류 and
the value-column cells by position. -/
structure PoliceRawRow where
  major : String
  minor : String
  vals : List Cell
deriving DecidableEq, Repr

/-- A parsed police CSV (education or prior-record layout). -/
structure PoliceRaw where
  valueCols : List String
  rows : List PoliceRawRow
deriving DecidableEq, Repr

/-- An output row of `clean_police_education`. -/
structure EduOutRow where
  crimeMajor : String
  crimeMinor : String
  education : String
  cnt : Int
deriving DecidableEq, Repr

/-- An output row of `clean_police_prior_record`. -/
structure PriorOutRow where
  crimeMajor : String
  crimeMinor : String
  priorRecord : String
  cnt : Int
deriving DecidableEq, Repr

/-- `clean_police_education`: melt over the two id columns, coercing each
cell to an integer count with `NaN ↦ 0`; the former column name becomes
the `education` field. -/
def cleanPoliceEducation (p : PoliceRaw) : List EduOutRow :=
  (List.range p.valueCols.length).flatMap fun j =>
    p.rows.map fun r =>
      { crimeMajor := r.major
        crimeMinor := r.minor
        education := p.valueCols.getD j ""
        cnt := countOfCell (r.vals.getD j none) }

/-- `clean_police_prior_record`: identical to `clean_police_education`
except that the former column name becomes the `prior_record` field. -/
def cleanPolicePriorRecord (p : PoliceRaw) : List PriorOutRow :=
  (List.range p.valueCols.length).flatMap fun j =>
    p.rows.map fun r =>
      { crimeMajor := r.major
        crimeMinor := r.minor
        priorRecord := p.valueCols.getD j ""
        cnt := countOfCell (r.vals.getD j none) }

/-- A row of `kosis_prior_convictions_2023.csv` as read: the three crime
id cells and the cells of the year columns by position.  The first two
rows of the table are the two extra header rows. -/
structure KosisRawRow where
  c1 : Cell
  c2 : Cell
  c3 : Cell
  vals : List Cell
deriving DecidableEq, Repr

/-- The parsed KOSIS CSV: the original year-column labels and all rows
(including the two header rows at positions 0 and 1). -/
structure KosisRaw where
  yearCols : List String
  rows : List KosisRawRow
deriving DecidableEq, Repr

/-- `str(h).strip().replace("nan", "").strip()` applied to a header cell. -/
def cleanHeaderCell (c : Cell) : String :=
  ⟨stripChars (removeSub "nan".data (stripChars (strOfCell c).data))⟩

/-- The renamed metric name of KOSIS year column `j`:
`"_".join([x for x in [year, top, sub] if x])` where `year` is the first
four-digit run of the original label (else the label itself) and
`top`/`sub` are the cleaned header cells of rows 0 and 1. -/
def kosisColName (t : KosisRaw) (j : Nat) : String :=
  let c := t.yearCols.getD j ""
  let year := (firstFourDigits c).getD c
  let top := cleanHeaderCell ((t.rows.getD 0 ⟨none, none, none, []⟩).vals.getD j none)
  let sub := cleanHeaderCell ((t.rows.getD 1 ⟨none, none, none, []⟩).vals.getD j none)
  ⟨joinWith ['_'] (([year, top, sub].filter (fun x => !(x == ""))).map String.data)⟩

/-- The data rows the KOSIS cleaner melts: drop the two header rows, then
drop every row whose first id cell renders to a string containing
범죄별. -/
def kosisDataRows (t : KosisRaw) : List KosisRawRow :=
  (t.rows.drop 2).filter fun r => !(strHasSub (strOfCell r.c1) "범죄별")

/-- `metric.split("_", n=2)` with the missing parts filled by `""`:
the year, group and detail fields. -/
def splitMetric2 (s : String) : String × String × String :=
  match splitOnce s.data with
  | (a, none) => (⟨a⟩, "", "")
  | (a, some rest) =>
    match splitOnce rest with
    | (b, none) => (⟨a⟩, ⟨b⟩, "")
    | (b, some rest2) => (⟨a⟩, ⟨b⟩, ⟨rest2⟩)
where
  /-- Split a character list at its first `'_'`. -/
  splitOnce : List Char → List Char × Option (List Char)
    | [] => ([], none)
    | c :: cs =>
      if c = '_' then ([], some cs)
      else
        match splitOnce cs with
        | (a, r) => (c :: a, r)

/-- An output row of `clean_kosis_prior_convictions`. -/
structure KosisOutRow where
  year : String
  lvl1 : Cell
  lvl2 : Cell
  lvl3 : Cell
  group : String
  detail : String
  cnt : Int
deriving DecidableEq, Repr

/-- `clean_kosis_prior_convictions`: rebuild the year-column names from
the two header rows, drop the header rows and the repeated 범죄별 label
rows, melt the year columns over the three crime id columns, parse each
cell with `pd.to_numeric(errors="coerce")` and drop the rows whose cell
did not parse, then split the metric name into year/group/detail. -/
def cleanKosisPriorConvictions (t : KosisRaw) : List KosisOutRow :=
  ((List.range t.yearCols.length).flatMap fun j =>
    (kosisDataRows t).map fun r => (r, kosisColName t j, r.vals.getD j none)).filterMap
    fun x =>
      (toNumericCell x.2.2).map fun q =>
        let parts := splitMetric2 x.2.1
        { year := parts.1
          lvl1 := x.1.c1
          lvl2 := x.1.c2
          lvl3 := x.1.c3
          group := parts.2.1
          detail := parts.2.2
          cnt := ratTrunc q }

/-- A row of `world_recidivism_rates.csv`; `rate` and `followUp` carry the
`str()` renderings the source immediately produces with `astype(str)`. -/
structure WorldRawRow where
  country : String
  typ : String
  duration : String
  rate : String
  followUp : String
deriving DecidableEq, Repr

/-- An output row of `clean_world_recidivism`. -/
structure WorldOutRow where
  country : String
  followupYears : Option Rat
  ratePct : Option Rat
  typ : String
  period : String
deriving DecidableEq, Repr

/-- `df["Follow-Up"].astype(str).str.contains("month", case=False)`. -/
def containsMonth (s : String) : Bool := strHasSubCI s "month"

/-- `clean_world_recidivism` on one row: strip `%` from the rate and
parse it; extract the first decimal number of the follow-up string and
divide it by 12 on the rows whose follow-up mentions months; rename
`Country`/`Type`/`Duration`. -/
def cleanWorldRow (r : WorldRawRow) : WorldOutRow :=
  let fy0 := extractDecimal r.followUp
  { country := r.country
    followupYears := if containsMonth r.followUp then fy0.map (fun q => q / 12) else fy0
    ratePct := parseNumeric (strRemove r.rate "%")
    typ := r.typ
    period := r.duration }

/-- `clean_world_recidivism` on the whole table. -/
def cleanWorldRecidivism (t : List WorldRawRow) : List WorldOutRow :=
  t.map cleanWorldRow

/-! ### `clean_enara_3yr_excel` -/

/-- One Excel row joined for the header search:
`" ".join([str(x) for x in row.values if pd.notna(x)])`. -/
def enaraJoined (row : List Cell) : String :=
  ⟨joinWith [' '] ((row.filterMap id).map String.data)⟩

/-- The header-row test of the loop body: the joined non-null cells
contain both `"2019"` and `"2020"`. -/
def enaraHeaderTest (row : List Cell) : Bool :=
  strHasSub (enaraJoined row) "2019" && strHasSub (enaraJoined row) "2020"

/-- The `for i, row in raw.iterrows(): ... break` search: index of the
first row passing `enaraHeaderTest`, else `none`. -/
def enaraFindHeader : List (List Cell) → Option Nat
  | [] => none
  | row :: rest =>
    if enaraHeaderTest row then some 0 else (enaraFindHeader rest).map (fun i => i + 1)

/-- An output row of `clean_enara_3yr_excel`. -/
structure EnaraOutRow where
  metric : String
  year : String
  value : Rat
deriving DecidableEq, Repr

/-- The `str()` rendering of the header cell at position `i` (a null
header cell renders as `"nan"`). -/
def enaraColName (header : List Cell) (i : Nat) : String :=
  strOfCell (header.getD i none)

/-- Processing below the header row: keep the rows whose first cell (the
`metric` column) is non-null and does not contain 출처; take as year
columns every later position whose header renders neither as the first
header label (renamed to `metric`), nor as `"metric"`, nor as `"nan"`;
melt them and keep the values that parse numerically after removing
commas. -/
def enaraProcess (header : List Cell) (below : List (List Cell)) : List EnaraOutRow :=
  let kept := below.filter fun r =>
    (r.getD 0 none).isSome && !(strHasSub (strOfCell (r.getD 0 none)) "출처")
  let yearIdx := (List.range header.length).filter fun i =>
    decide (0 < i) && !(enaraColName header i == enaraColName header 0)
      && !(enaraColName header i == "metric") && !(enaraColName header i == "nan")
  (yearIdx.flatMap fun i =>
    kept.map fun r => (strOfCell (r.getD 0 none), enaraColName header i, r.getD i none)).filterMap
    fun x =>
      (parseNumeric (strRemove (strOfCell x.2.2) ",")).map fun q =>
        { metric := x.1, year := x.2.1, value := q }

/-- `clean_enara_3yr_excel`: find the year-header row; raise `ValueError`
when there is none, otherwise process the rows below it with the found
row as the column header. -/
def cleanEnara3yrExcel (sheet : List (List Cell)) : Except String (List EnaraOutRow) :=
  match enaraFindHeader sheet with
  | none => .error "Could not find the year-header row in the Excel sheet."
  | some i => .ok (enaraProcess (sheet.getD i []) (sheet.drop (i + 1)))

/-! ## Embedding of `src/make_tables.py` and `src/visualize.py`

These scripts re-read the tidy CSVs written by `preprocess.py`; a tidy
table is modelled as a list of rows with plain string key fields and an
integer count. -/

/-- A row of the tidy prosecution table
`prosecution_reoffend_period_type_2017_tidy.csv`. -/
structure ProsTidyRow where
  crime : String
  recid : String
  period : String
  cnt : Int
deriving DecidableEq, Repr

/-- A row of the tidy KOSIS table `kosis_prior_convictions_2023_tidy.csv`. -/
structure KosisTidyRow where
  year : String
  lvl1 : String
  lvl2 : String
  lvl3 : String
  group : String
  detail : String
  cnt : Int
deriving DecidableEq, Repr

/-- A row of the tidy police-education table
`police_education_2020_tidy.csv`. -/
structure EduTidyRow where
  crimeMajor : String
  crimeMinor : String
  education : String
  cnt : Int
deriving DecidableEq, Repr

/-- Sum of the `count` column over the rows matching a decidable row
predicate — the `groupby(...)["count"].sum()` of one group, and the
building block of the filtered sums in `visualize.py`. -/
def sumCnt {ρ : Type} (cnt : ρ → Int) (p : ρ → Prop) [DecidablePred p]
    (t : List ρ) : Int :=
  ((t.filter (fun r => decide (p r))).map cnt).sum

/-- Comparator ordering pairs of strings lexicographically by code
point — the order `groupby` sorts two string keys into. -/
def pairLe (a b : String × String) : Bool :=
  strLt a.1 b.1 || (a.1 == b.1 && strLe a.2 b.2)

/-- The sorted list of distinct values of `key` over `t`: the group keys
produced by `groupby(key, as_index=False)` with a string key. -/
def groupKeys1 (key : ProsTidyRow → String) (t : List ProsTidyRow) : List String :=
  sortLe strLe (t.map key).dedup

/-! ### H2: `groupby(["recid_type", "period"])["count"].sum()` then
`sort_values(["recid_type", "count"], ascending=[True, False])` -/

/-- A row of the `H2_period_distribution.csv` summary. -/
structure H2Row where
  recid : String
  period : String
  cnt : Int
deriving DecidableEq, Repr

/-- The comparator of `sort_values(["recid_type", "count"],
ascending=[True, False])`. -/
def h2Le (a b : H2Row) : Bool :=
  strLt a.recid b.recid || (a.recid == b.recid && decide (b.cnt ≤ a.cnt))

/-- The H2 summary of `make_tables.main`: group the tidy prosecution
table by `(recid_type, period)`, sum the counts, and sort by ascending
`recid_type` with descending counts inside each `recid_type`. -/
def makeH2 (t : List ProsTidyRow) : List H2Row :=
  let ks := sortLe pairLe ((t.map fun r => (r.recid, r.period)).dedup)
  sortLe h2Le (ks.map fun k =>
    { recid := k.1, period := k.2
      cnt := sumCnt (fun r => r.cnt) (fun r => r.recid = k.1 ∧ r.period = k.2) t })

/-! ### H1: 2023 prior-conviction share -/

/-- The `(합계, 소계, 소계)` overall-total filter of `make_tables.main`
(variable `total`). -/
def kosisTotalRows (t : List KosisTidyRow) : List KosisTidyRow :=
  t.filter fun r => decide (r.lvl1 = "합계" ∧ r.lvl2 = "소계" ∧ r.lvl3 = "소계")

/-- The rows of `total` kept for H1: `group` is 전과없음 or 전과. -/
def h1Source (t : List KosisTidyRow) : List KosisTidyRow :=
  (kosisTotalRows t).filter fun r => decide (r.group = "전과없음" ∨ r.group = "전과")

/-- The grouped H1 rows before the share column:
`groupby(["year", "group"])["count"].sum()`. -/
structure H1BaseRow where
  year : String
  group : String
  cnt : Int
deriving DecidableEq, Repr

def makeH1Base (t : List KosisTidyRow) : List H1BaseRow :=
  let src := h1Source t
  (sortLe pairLe ((src.map fun r => (r.year, r.group)).dedup)).map fun k =>
    { year := k.1, group := k.2
      cnt := sumCnt (fun r => r.cnt) (fun r => r.year = k.1 ∧ r.group = k.2) src }

/-- `h1.groupby("year")["count"].transform("sum")` for a given year: the
per-year denominator of the share column. -/
def h1Denom (t : List KosisTidyRow) (y : String) : Int :=
  (((makeH1Base t).filter fun r => decide (r.year = y)).map fun r => r.cnt).sum

/-- A row of `H1_prior_share_2023.csv`. -/
structure H1Row where
  year : String
  group : String
  cnt : Int
  share : Rat
deriving DecidableEq, Repr

/-- The H1 summary with its share column `count / denom`. -/
def makeH1 (t : List KosisTidyRow) : List H1Row :=
  (makeH1Base t).map fun r =>
    { year := r.year, group := r.group, cnt := r.cnt
      share := (r.cnt : Rat) / (h1Denom t r.year : Rat) }

/-! ### H3: education buckets -/

/-- `edu_bucket` of `make_tables.main`. -/
def eduBucket (x : String) : String :=
  if strStarts x "대학" || strStarts x "대학원" then "대학이상"
  else if strStarts x "고등학교" || strStarts x "중학교" || strStarts x "초등학교"
      || x == "불취학" then "고졸이하"
  else "기타/미상"

/-- A row of `H3_education_bucket_share_2020.csv`. -/
structure H3Row where
  bucket : String
  cnt : Int
  share : Rat
deriving DecidableEq, Repr

/-- `df_e.groupby(["bucket"])["count"].sum()`: one `(bucket, count)` pair
per distinct bucket of the data, in sorted key order. -/
def makeH3Base (t : List EduTidyRow) : List (String × Int) :=
  (sortLe strLe ((t.map fun r => eduBucket r.education).dedup)).map fun b =>
    (b, sumCnt (fun r => r.cnt) (fun r => eduBucket r.education = b) t)

/-- The denominator `h3["count"].sum()` of the share column. -/
def h3Denom (t : List EduTidyRow) : Int :=
  ((makeH3Base t).map fun r => r.2).sum

/-- The H3 summary: bucket each education label, group by bucket, sum the
counts, and divide by the summed counts for the share column. -/
def makeH3 (t : List EduTidyRow) : List H3Row :=
  (makeH3Base t).map fun r =>
    { bucket := r.1, cnt := r.2, share := (r.2 : Rat) / (h3Denom t : Rat) }

/-! ### `visualize.py` -/

/-- The fixed period order of `fig_reoffend_time_distribution`. -/
def periodOrder : List String :=
  ["1개월이내", "3개월이내", "6개월이내", "1년이내", "2년이내", "3년이내", "3년초과"]

/-- Rank of a period in the categorical order; periods outside the list
become `NaN`, which `sort_values` places last. -/
def periodRank (p : String) : Nat :=
  match periodOrder.findIdx? (fun q => q == p) with
  | some i => i
  | none => periodOrder.length

/-- A row of the aggregation of `fig_reoffend_time_distribution`. -/
structure Fig2Row where
  recid : String
  period : String
  cnt : Int
  sharePct : Rat
deriving DecidableEq, Repr

/-- The grouped rows of `fig_reoffend_time_distribution` before the share
column: `groupby(["recid_type", "period"])["count"].sum()` sorted by
`recid_type` and categorical period. -/
def fig2Base (t : List ProsTidyRow) : List (String × String × Int) :=
  let ks := sortLe pairLe ((t.map fun r => (r.recid, r.period)).dedup)
  sortLe (fun a b => strLt a.1 b.1 || (a.1 == b.1 && decide (periodRank a.2.1 ≤ periodRank b.2.1)))
    (ks.map fun k =>
      (k.1, k.2, sumCnt (fun r => r.cnt) (fun r => r.recid = k.1 ∧ r.period = k.2) t))

/-- The per-`recid_type` denominator of
`agg.groupby("recid_type")["count"].transform(lambda s: 100 * s / s.sum())`. -/
def fig2Denom (t : List ProsTidyRow) (rt : String) : Int :=
  (((fig2Base t).filter fun r => decide (r.1 = rt)).map fun r => r.2.2).sum

/-- The aggregation of `fig_reoffend_time_distribution` with its
`share_pct` column `100 * count / groupsum`. -/
def fig2Agg (t : List ProsTidyRow) : List Fig2Row :=
  (fig2Base t).map fun r =>
    { recid := r.1, period := r.2.1, cnt := r.2.2
      sharePct := 100 * (r.2.2 : Rat) / (fig2Denom t r.1 : Rat) }

/-! ### `fig_top_crimes` -/

/-- A per-crime total of `fig_top_crimes`. -/
structure CrimeTotal where
  crime : String
  cnt : Int
deriving DecidableEq, Repr

/-- `period_type.groupby("crime")["count"].sum()`: one total per distinct
crime, in sorted key order. -/
def crimeTotals (t : List ProsTidyRow) : List CrimeTotal :=
  (groupKeys1 (fun r => r.crime) t).map fun c =>
    { crime := c, cnt := sumCnt (fun r => r.cnt) (fun r => r.crime = c) t }

/-- The totals sorted by descending count —
`sort_values("count", ascending=False)`. -/
def crimeTotalsDesc (t : List ProsTidyRow) : List CrimeTotal :=
  sortLe (fun a b => decide (b.cnt ≤ a.cnt)) (crimeTotals t)

/-- The crimes `fig_top_crimes` plots: the `top_n` largest totals,
re-sorted by ascending count — `.head(top_n).sort_values("count")`. -/
def figTopCrimes (t : List ProsTidyRow) (topN : Nat) : List CrimeTotal :=
  sortLe (fun a b => decide (a.cnt ≤ b.cnt)) ((crimeTotalsDesc t).take topN)

/-! ### `fig_prior_conviction_share` -/

/-- The `base` filter of `fig_prior_conviction_share`:
`crime_lvl1 == 합계`, `crime_lvl2 == 소계`, `crime_lvl3 == 소계`. -/
def figPriorBase (t : List KosisTidyRow) : List KosisTidyRow :=
  t.filter fun r => decide (r.lvl1 = "합계" ∧ r.lvl2 = "소계" ∧ r.lvl3 = "소계")

/-- The `prior` value of `fig_prior_conviction_share`: the summed count of
the `(전과, 소계)` rows when positive, else the summed count of the
전과 rows with `detail != 소계`. -/
def figPriorValue (t : List KosisTidyRow) : Int :=
  let b := figPriorBase t
  let priorTotal := sumCnt (fun r => r.cnt) (fun r => r.group = "전과" ∧ r.detail = "소계") b
  if 0 < priorTotal then priorTotal
  else sumCnt (fun r => r.cnt) (fun r => r.group = "전과" ∧ r.detail ≠ "소계") b

/-- A row of the `comp` table of `fig_prior_conviction_share`. -/
structure CompRow where
  category : String
  cnt : Int
  sharePct : Rat
deriving DecidableEq, Repr

/-- The three-category composition table of `fig_prior_conviction_share`:
no-prior, prior, unknown counts with their percentage shares. -/
def figPriorComp (t : List KosisTidyRow) : List CompRow :=
  let b := figPriorBase t
  let noPrior := sumCnt (fun r => r.cnt) (fun r => r.group = "전과없음" ∧ r.detail = "소계") b
  let prior := figPriorValue t
  let unknown := sumCnt (fun r => r.cnt) (fun r => r.group = "미상" ∧ r.detail = "소계") b
  let tot := noPrior + prior + unknown
  [ { category := "전과없음", cnt := noPrior, sharePct := 100 * (noPrior : Rat) / (tot : Rat) },
    { category := "전과(1회 이상)", cnt := prior, sharePct := 100 * (prior : Rat) / (tot : Rat) },
    { category := "미상", cnt := unknown, sharePct := 100 * (unknown : Rat) / (tot : Rat) } ]

/-! ### `fig_education_bucket_share` -/

/-- The `bucket` classifier local to `fig_education_bucket_share`: a label
containing 대학원, 대학 or 전문대 is 대학-이상; the exact labels 미상 and
기타 are 미상/기타; everything else is 고졸-이하. -/
def visBucket (x : String) : String :=
  if strHasSub x "대학원" || strHasSub x "대학" || strHasSub x "전문대" then "대학 이상"
  else if x == "미상" || x == "기타" then "미상/기타"
  else "고졸 이하"

/-- The correspondence of C7 between the bucket names of `edu_bucket`
(in `make_tables`) and of `bucket` (in `fig_education_bucket_share`). -/
def bucketsCorrespond (a b : String) : Bool :=
  (a == "대학이상" && b == "대학 이상")
    || (a == "고졸이하" && b == "고졸 이하")
    || (a == "기타/미상" && b == "미상/기타")

/-! ### The raw inputs of `preprocess.main`

`preprocess.main` reads six fixed files and runs one cleaner on each; the
structure below carries the parsed content of all six, and each
`run*Step` function models one cleaner invocation reading only its own
file. -/

structure RawData where
  pros : ProsRaw
  kosis : KosisRaw
  eduPolice : PoliceRaw
  priorPolice : PoliceRaw
  world : List WorldRawRow
  enara : List (List Cell)

/-- The `clean_prosecution_period_type(DATA_RAW / ...)` step. -/
def runProsStep (d : RawData) : List ProsOutRow := cleanProsecutionPeriodType d.pros

/-- The `clean_kosis_prior_convictions(DATA_RAW / ...)` step. -/
def runKosisStep (d : RawData) : List KosisOutRow := cleanKosisPriorConvictions d.kosis

/-- The `clean_police_education(DATA_RAW / ...)` step. -/
def runEduStep (d : RawData) : List EduOutRow := cleanPoliceEducation d.eduPolice

/-- The `clean_police_prior_record(DATA_RAW / ...)` step. -/
def runPriorStep (d : RawData) : List PriorOutRow := cleanPolicePriorRecord d.priorPolice

/-- The `clean_world_recidivism(DATA_RAW / ...)` step. -/
def runWorldStep (d : RawData) : List WorldOutRow := cleanWorldRecidivism d.world

/-- The `clean_enara_3yr_excel(DATA_RAW / ...)` step. -/
def runEnaraStep (d : RawData) : Except String (List EnaraOutRow) := cleanEnara3yrExcel d.enara

/-! ## Shared lemmas -/

theorem charsLe_total : ∀ l₁ l₂, charsLe l₁ l₂ || charsLe l₂ l₁
  | [], _ => by simp [charsLe]
  | _ :: _, [] => by simp [charsLe]
  | a :: as, b :: bs => by
    simp only [charsLe]
    by_cases hab : a.toNat < b.toNat
    · simp [hab]
    · by_cases hba : b.toNat < a.toNat
      · simp [hba]
      · simp only [hab, hba, if_false]
        exact charsLe_total as bs

theorem charsLe_trans : ∀ l₁ l₂ l₃, charsLe l₁ l₂ → charsLe l₂ l₃ → charsLe l₁ l₃
  | [], _, _, _, _ => by simp [charsLe]
  | _ :: _, [], _, h, _ => by simp [charsLe] at h
  | _ :: _, _ :: _, [], _, h => by simp [charsLe] at h
  | a :: as, b :: bs, c :: cs, h₁, h₂ => by
    simp only [charsLe] at h₁ h₂ ⊢
    by_cases hab : a.toNat < b.toNat
    · by_cases hbc : b.toNat < c.toNat
      · simp [Nat.lt_trans hab hbc]
      · simp only [hbc, if_false] at h₂
        by_cases hcb : c.toNat < b.toNat
        · simp [hcb] at h₂
        · have hac : a.toNat < c.toNat := by omega
          simp [hac]
    · simp only [hab, if_false] at h₁
      by_cases hba : b.toNat < a.toNat
      · simp [hba] at h₁
      · simp only [hba, if_false] at h₁
        by_cases hbc : b.toNat < c.toNat
        · have hac : a.toNat < c.toNat := by omega
          simp [hac]
        · simp only [hbc, if_false] at h₂
          by_cases hcb : c.toNat < b.toNat
          · simp [hcb] at h₂
          · simp only [hcb, if_false] at h₂
            have hac : ¬ a.toNat < c.toNat := by omega
            have hca : ¬ c.toNat < a.toNat := by omega
            simp only [hac, hca, if_false]
            exact charsLe_trans as bs cs h₁ h₂

theorem strLe_total (s t : String) : strLe s t || strLe t s := charsLe_total _ _

theorem strLe_trans {s t u : String} (h₁ : strLe s t) (h₂ : strLe t u) : strLe s u :=
  charsLe_trans _ _ _ h₁ h₂

/-- Totality of string-then-secondary lexicographic comparators. -/
theorem lexLe_total {γ β : Type} (f : γ → String) (g : γ → β) (le2 : β → β → Bool)
    (h2 : ∀ x y, le2 x y || le2 y x) (a b : γ) :
    (strLt (f a) (f b) || (f a == f b && le2 (g a) (g b)))
      || (strLt (f b) (f a) || (f b == f a && le2 (g b) (g a))) := by
  rcases strLt_trichotomy (f a) (f b) with h | h | h
  · simp [h]
  · rcases Bool.or_eq_true_iff.mp (h2 (g a) (g b)) with h' | h' <;> simp [h, h']
  · simp [h]

/-- Transitivity of string-then-secondary lexicographic comparators. -/
theorem lexLe_trans {γ β : Type} (f : γ → String) (g : γ → β) (le2 : β → β → Bool)
    (h2 : ∀ x y z, le2 x y → le2 y z → le2 x z) (a b c : γ)
    (hab : strLt (f a) (f b) || (f a == f b && le2 (g a) (g b)))
    (hbc : strLt (f b) (f c) || (f b == f c && le2 (g b) (g c))) :
    strLt (f a) (f c) || (f a == f c && le2 (g a) (g c)) := by
  rcases Bool.or_eq_true_iff.mp hab with h₁ | h₁
  · rcases Bool.or_eq_true_iff.mp hbc with h₂ | h₂
    · simp [strLt_trans h₁ h₂]
    · have he : f b = f c := beq_iff_eq.mp (Bool.and_eq_true_iff.mp h₂).1
      simp [← he, h₁]
  · have he : f a = f b := beq_iff_eq.mp (Bool.and_eq_true_iff.mp h₁).1
    rcases Bool.or_eq_true_iff.mp hbc with h₂ | h₂
    · simp [he, h₂]
    · have he' : f b = f c := beq_iff_eq.mp (Bool.and_eq_true_iff.mp h₂).1
      have hle := h2 _ _ _ (Bool.and_eq_true_iff.mp h₁).2 (Bool.and_eq_true_iff.mp h₂).2
      simp [he, he', hle]

/-- A sum of counts divided by a common denominator. -/
theorem sum_map_div (l : List Int) (d : Rat) :
    (l.map (fun c : Int => (c : Rat) / d)).sum = (l.sum : Rat) / d := by
  induction l with
  | nil => simp
  | cons c cs ih => simp [ih, add_div]

/-- A sum of percentage shares with a common denominator. -/
theorem sum_map_mul_div (l : List Int) (d : Rat) :
    (l.map (fun c : Int => 100 * (c : Rat) / d)).sum = 100 * (l.sum : Rat) / d := by
  induction l with
  | nil => simp
  | cons c cs ih =>
    simp only [List.map_cons, List.sum_cons, ih]
    push_cast
    ring

/-- Length of a column-major melt: columns times rows. -/
theorem length_flatMap_mapRows {α β γ : Type} (rows : List α) (g : γ → α → β) :
    ∀ ks : List γ, (ks.flatMap fun j => rows.map (g j)).length = ks.length * rows.length
  | [] => by simp
  | k :: ks => by
    simp [List.flatMap_cons, length_flatMap_mapRows rows g ks, Nat.succ_mul, Nat.add_comm]

/-- A list starting with `pat` contains `pat`. -/
theorem hasSub_of_listStarts {pat l : List Char} (h : listStarts pat l = true) :
    hasSub pat l = true := by
  cases l with
  | nil => simpa [hasSub]
  | cons c cs => simp [hasSub, h]

/-- A prefix of a prefix: `listStarts (p ++ q) l → listStarts p l`. -/
theorem listStarts_of_append : ∀ (p q l : List Char),
    listStarts (p ++ q) l = true → listStarts p l = true
  | [], _, _, _ => by simp [listStarts]
  | a :: p, q, [], h => by simp [listStarts] at h
  | a :: p, q, c :: cs, h => by
    simp only [List.cons_append, listStarts, Bool.and_eq_true_iff] at h ⊢
    exact ⟨h.1, listStarts_of_append p q cs h.2⟩

/-- Containing `p ++ q` implies containing `p`. -/
theorem hasSub_of_append : ∀ (p q l : List Char),
    hasSub (p ++ q) l = true → hasSub p l = true
  | p, q, [], h => by
    simp only [hasSub] at h ⊢
    exact listStarts_of_append p q [] h
  | p, q, c :: cs, h => by
    simp only [hasSub, Bool.or_eq_true_iff] at h ⊢
    rcases h with h | h
    · exact Or.inl (listStarts_of_append p q _ h)
    · exact Or.inr (hasSub_of_append p q cs h)

/-- Column-major list of the value cells of a melt: for each of the `k`
value-column positions, the cell of every row at that position. -/
def colMajorCells {ρ : Type} (k : Nat) (rows : List ρ) (vals : ρ → List Cell) : List Cell :=
  (List.range k).flatMap fun j => rows.map fun r => (vals r).getD j none

/-! ## Claim theorems -/

/-- C1: each fill-zero cleaner (`clean_police_education`,
`clean_police_prior_record`, `clean_prosecution_period_type`) returns a
long table with exactly `n * k` rows for `n` data rows and `k` value
columns — one row per cell — and the count field of the rows is, cell by
cell in melt order, the cell parsed as an integer, or `0` when the cell
is not numeric. -/
theorem fillZero_cleaners_shape (p : ProsRaw) (e pr : PoliceRaw) :
    ((cleanProsecutionPeriodType p).length = p.rows.length * p.valueCols.length
      ∧ (cleanProsecutionPeriodType p).map (fun r => r.cnt)
          = (colMajorCells p.valueCols.length p.rows (fun r => r.vals)).map
              (fun c => match toNumericCell c with | none => 0 | some q => ratTrunc q))
    ∧ ((cleanPoliceEducation e).length = e.rows.length * e.valueCols.length
      ∧ (cleanPoliceEducation e).map (fun r => r.cnt)
          = (colMajorCells e.valueCols.length e.rows (fun r => r.vals)).map
              (fun c => match toNumericCell c with | none => 0 | some q => ratTrunc q))
    ∧ ((cleanPolicePriorRecord pr).length = pr.rows.length * pr.valueCols.length
      ∧ (cleanPolicePriorRecord pr).map (fun r => r.cnt)
          = (colMajorCells pr.valueCols.length pr.rows (fun r => r.vals)).map
              (fun c => match toNumericCell c with | none => 0 | some q => ratTrunc q)) := by
  refine ⟨⟨?_, ?_⟩, ⟨?_, ?_⟩, ⟨?_, ?_⟩⟩
  · rw [cleanProsecutionPeriodType, length_flatMap_mapRows, List.length_range, Nat.mul_comm]
  · simp only [cleanProsecutionPeriodType, colMajorCells, List.map_flatMap, List.map_map]
    rfl
  · rw [cleanPoliceEducation, length_flatMap_mapRows, List.length_range, Nat.mul_comm]
  · simp only [cleanPoliceEducation, colMajorCells, List.map_flatMap, List.map_map]
    rfl
  · rw [cleanPolicePriorRecord, length_flatMap_mapRows, List.length_range, Nat.mul_comm]
  · simp only [cleanPolicePriorRecord, colMajorCells, List.map_flatMap, List.map_map]
    rfl

/-- C5: in `fig_prior_conviction_share`, over the rows with
`crime_lvl1 = 합계`, `crime_lvl2 = 소계`, `crime_lvl3 = 소계`, the
no-prior, prior and unknown counts of the composition table are the
stated filtered sums, the prior count being the `(전과, 소계)` sum when
that sum is positive and otherwise the sum of the 전과 rows with detail
different from 소계. -/
theorem figPriorComp_counts (t : List KosisTidyRow) :
    ((figPriorComp t).map fun r => r.cnt)
      = [ sumCnt (fun r => r.cnt) (fun r => r.group = "전과없음" ∧ r.detail = "소계") (figPriorBase t),
          (if 0 < sumCnt (fun r => r.cnt) (fun r => r.group = "전과" ∧ r.detail = "소계") (figPriorBase t)
            then sumCnt (fun r => r.cnt) (fun r => r.group = "전과" ∧ r.detail = "소계") (figPriorBase t)
            else sumCnt (fun r => r.cnt) (fun r => r.group = "전과" ∧ r.detail ≠ "소계") (figPriorBase t)),
          sumCnt (fun r => r.cnt) (fun r => r.group = "미상" ∧ r.detail = "소계") (figPriorBase t) ] := by
  simp [figPriorComp, figPriorValue]

/-- C9: in `clean_world_recidivism`, `followup_years` is the first
decimal number extracted from the Follow-Up string, divided by 12 when
that string contains "month" case-insensitively, and is missing exactly
when no number is present. -/
theorem world_followupYears (r : WorldRawRow) :
    (cleanWorldRow r).followupYears
      = (extractDecimal r.followUp).map
          (fun q => if containsMonth r.followUp then q / 12 else q) := by
  rw [cleanWorldRow]
  by_cases h : containsMonth r.followUp
  · simp [h]
  · simp [h]

/-- C10: each cleaner of `preprocess.py` is a deterministic function of
the parsed content of its single input file: whenever two raw-input
states agree on that file's content, the cleaner's step returns the same
table, whatever the other files hold. -/
theorem cleaners_independent (d d' : RawData) :
    (d.pros = d'.pros → runProsStep d = runProsStep d')
    ∧ (d.kosis = d'.kosis → runKosisStep d = runKosisStep d')
    ∧ (d.eduPolice = d'.eduPolice → runEduStep d = runEduStep d')
    ∧ (d.priorPolice = d'.priorPolice → runPriorStep d = runPriorStep d')
    ∧ (d.world = d'.world → runWorldStep d = runWorldStep d')
    ∧ (d.enara = d'.enara → runEnaraStep d = runEnaraStep d') :=
  ⟨fun h => congrArg cleanProsecutionPeriodType h,
   fun h => congrArg cleanKosisPriorConvictions h,
   fun h => congrArg cleanPoliceEducation h,
   fun h => congrArg cleanPolicePriorRecord h,
   fun h => congrArg cleanWorldRecidivism h,
   fun h => congrArg cleanEnara3yrExcel h⟩

/-- Witness for C10: two raw-input states that share only the parsed
prosecution CSV; the prosecution step returns the same table on both. -/
theorem cleaners_independent_witness :
    runProsStep ⟨⟨["동종재범_1년이내"], [⟨"절도", [some "3"]⟩]⟩,
        ⟨["2023"], []⟩, ⟨["대학교"], []⟩, ⟨["전과무"], []⟩, [], []⟩
      = runProsStep ⟨⟨["동종재범_1년이내"], [⟨"절도", [some "3"]⟩]⟩,
        ⟨[], []⟩, ⟨[], []⟩, ⟨[], []⟩,
        [⟨"Korea", "Reimprisonment", "3yr", "24.1%", "36 months"⟩], [[some "2019 2020"]]⟩ :=
  (cleaners_independent _ _).1 rfl

theorem h2Le_total (a b : H2Row) : h2Le a b || h2Le b a := by
  have := lexLe_total (fun r : H2Row => r.recid) (fun r => r.cnt)
    (fun x y => decide (y ≤ x)) (fun x y => by simp [Int.le_total]) a b
  simpa [h2Le] using this

theorem h2Le_trans (a b c : H2Row) (h₁ : h2Le a b) (h₂ : h2Le b c) : h2Le a c := by
  have := lexLe_trans (fun r : H2Row => r.recid) (fun r => r.cnt)
    (fun x y => decide (y ≤ x))
    (fun x y z hxy hyz => by simp only [decide_eq_true_eq] at *; omega) a b c
    (by simpa [h2Le] using h₁) (by simpa [h2Le] using h₂)
  simpa [h2Le] using this

/-- C2: the H2 summary contains exactly one row for each
`(recid_type, period)` pair occurring in the tidy prosecution table, its
count is the summed count of the crime rows with that pair, and the rows
are ordered by ascending `recid_type` and by descending count inside each
`recid_type`. -/
theorem makeH2_spec (t : List ProsTidyRow) :
    ((makeH2 t).map fun r => (r.recid, r.period)).Nodup
    ∧ (∀ k : String × String,
        (k ∈ (makeH2 t).map fun r => (r.recid, r.period)) ↔ ∃ r ∈ t, (r.recid, r.period) = k)
    ∧ (∀ r ∈ makeH2 t,
        r.cnt = ((t.filter fun x => decide (x.recid = r.recid ∧ x.period = r.period)).map
          fun x => x.cnt).sum)
    ∧ (makeH2 t).Pairwise
        (fun a b => strLt a.recid b.recid ∨ (a.recid = b.recid ∧ b.cnt ≤ a.cnt)) := by
  have hkeys : ((makeH2 t).map fun r => (r.recid, r.period)).Perm
      ((t.map fun r => (r.recid, r.period)).dedup) := by
    refine ((sortLe_perm h2Le _).map _).trans ?_
    rw [List.map_map]
    have : ((fun r : H2Row => (r.recid, r.period)) ∘
        (fun k : String × String =>
          ({ recid := k.1, period := k.2
             cnt := sumCnt (fun r => r.cnt) (fun r => r.recid = k.1 ∧ r.period = k.2) t } : H2Row)))
        = id := by
      funext k
      simp
    rw [this, List.map_id]
    exact sortLe_perm pairLe _
  refine ⟨?_, ?_, ?_, ?_⟩
  · exact hkeys.symm.nodup (List.nodup_dedup _)
  · intro k
    rw [hkeys.mem_iff, List.mem_dedup, List.mem_map]
  · intro r hr
    have hr' : r ∈ (sortLe pairLe ((t.map fun r => (r.recid, r.period)).dedup)).map
        (fun k : String × String =>
          ({ recid := k.1, period := k.2
             cnt := sumCnt (fun r => r.cnt) (fun r => r.recid = k.1 ∧ r.period = k.2) t } : H2Row)) :=
      mem_sortLe.mp hr
    rcases List.mem_map.mp hr' with ⟨k, _, hk⟩
    subst hk
    rfl
  · refine List.Pairwise.imp ?_ (pairwise_sortLe h2Le_total h2Le_trans _)
    intro a b h
    simpa [h2Le, Bool.or_eq_true_iff, Bool.and_eq_true_iff, beq_iff_eq,
      decide_eq_true_eq] using h

theorem cntGe_total (a b : CrimeTotal) : decide (b.cnt ≤ a.cnt) || decide (a.cnt ≤ b.cnt) := by
  rcases Int.le_total b.cnt a.cnt with h | h <;> simp [h]

theorem cntGe_trans (a b c : CrimeTotal) (h₁ : decide (b.cnt ≤ a.cnt) = true)
    (h₂ : decide (c.cnt ≤ b.cnt) = true) : decide (c.cnt ≤ a.cnt) = true := by
  simp only [decide_eq_true_eq] at *
  omega

/-- C6: `fig_top_crimes` keeps at most `top_n` crimes; together with the
dropped crimes they are exactly the per-crime totals of the whole tidy
table; every kept total is at least every dropped total; and the kept
crimes are plotted in ascending order of total count. -/
theorem figTopCrimes_spec (t : List ProsTidyRow) (topN : Nat) :
    (figTopCrimes t topN).length ≤ topN
    ∧ (figTopCrimes t topN ++ (crimeTotalsDesc t).drop topN).Perm (crimeTotals t)
    ∧ (∀ a ∈ figTopCrimes t topN, ∀ b ∈ (crimeTotalsDesc t).drop topN, b.cnt ≤ a.cnt)
    ∧ (figTopCrimes t topN).Pairwise (fun a b => a.cnt ≤ b.cnt) := by
  have hdesc : (crimeTotalsDesc t).Pairwise
      (fun x y => decide (y.cnt ≤ x.cnt) = true) :=
    pairwise_sortLe (fun a b => cntGe_total a b) cntGe_trans _
  refine ⟨?_, ?_, ?_, ?_⟩
  · rw [figTopCrimes, (sortLe_perm _ _).length_eq, List.length_take]
    omega
  · refine (List.Perm.append (sortLe_perm _ _) (List.Perm.refl _)).trans ?_
    rw [List.take_append_drop]
    exact sortLe_perm _ _
  · intro a ha b hb
    have ha' : a ∈ (crimeTotalsDesc t).take topN := mem_sortLe.mp ha
    have := List.Sorted.rel_of_mem_take_of_mem_drop
      (show List.Sorted (fun x y => decide (y.cnt ≤ x.cnt) = true) (crimeTotalsDesc t) from hdesc)
      ha' hb
    exact decide_eq_true_eq.mp this
  · refine List.Pairwise.imp ?_
      (pairwise_sortLe (fun a b => by rcases Int.le_total a.cnt b.cnt with h | h <;> simp [h])
        (fun a b c h₁ h₂ => by simp only [decide_eq_true_eq] at *; omega) _)
    intro a b h
    exact decide_eq_true_eq.mp h

/-- C3: every share column the pipeline produces is a normalized
distribution when the corresponding filtered total is positive: the H1
shares of one year sum to 1, the H3 shares sum to 1, and the
`share_pct` values of one `recid_type` in `fig_reoffend_time_distribution`
sum to 100. -/
theorem shares_normalized (tk : List KosisTidyRow) (te : List EduTidyRow)
    (tp : List ProsTidyRow) (y rt : String) :
    (0 < h1Denom tk y →
      (((makeH1 tk).filter fun r => decide (r.year = y)).map fun r => r.share).sum = 1)
    ∧ (0 < h3Denom te → ((makeH3 te).map fun r => r.share).sum = 1)
    ∧ (0 < fig2Denom tp rt →
      (((fig2Agg tp).filter fun r => decide (r.recid = rt)).map fun r => r.sharePct).sum = 100) := by
  refine ⟨?_, ?_, ?_⟩
  · intro h
    have hne : ((h1Denom tk y : Int) : Rat) ≠ 0 :=
      ne_of_gt (by exact_mod_cast h)
    rw [makeH1, List.filter_map]
    rw [List.map_map]
    have hcong : ((makeH1Base tk).filter
          ((fun r : H1Row => decide (r.year = y)) ∘ fun r =>
            ({ year := r.year, group := r.group, cnt := r.cnt
               share := (r.cnt : Rat) / (h1Denom tk r.year : Rat) } : H1Row))).map
          ((fun r : H1Row => r.share) ∘ fun r =>
            ({ year := r.year, group := r.group, cnt := r.cnt
               share := (r.cnt : Rat) / (h1Denom tk r.year : Rat) } : H1Row))
        = ((makeH1Base tk).filter fun r => decide (r.year = y)).map
            (fun r => (r.cnt : Rat) / (h1Denom tk y : Rat)) := by
      refine List.map_congr_left ?_
      intro r hr
      have : r.year = y := by
        have := List.of_mem_filter hr
        simpa using this
      simp [Function.comp, this]
    rw [hcong]
    have hsplit : (((makeH1Base tk).filter fun r => decide (r.year = y)).map
          fun r => (r.cnt : Rat) / (h1Denom tk y : Rat))
        = ((((makeH1Base tk).filter fun r => decide (r.year = y)).map fun r => r.cnt).map
            (fun c : Int => (c : Rat) / (h1Denom tk y : Rat))) := by
      rw [List.map_map]; rfl
    rw [hsplit, sum_map_div]
    rw [show (((makeH1Base tk).filter fun r => decide (r.year = y)).map fun r => r.cnt).sum
        = h1Denom tk y from rfl]
    exact div_self hne
  · intro h
    have hne : ((h3Denom te : Int) : Rat) ≠ 0 :=
      ne_of_gt (by exact_mod_cast h)
    rw [makeH3, List.map_map]
    rw [show ((fun r : H3Row => r.share) ∘ fun r : String × Int =>
          ({ bucket := r.1, cnt := r.2, share := (r.2 : Rat) / (h3Denom te : Rat) } : H3Row))
        = fun r : String × Int => (r.2 : Rat) / (h3Denom te : Rat) from rfl]
    have hsplit : ((makeH3Base te).map fun r => (r.2 : Rat) / (h3Denom te : Rat))
        = (((makeH3Base te).map fun r => r.2).map
            (fun c : Int => (c : Rat) / (h3Denom te : Rat))) := by
      rw [List.map_map]; rfl
    rw [hsplit, sum_map_div]
    rw [show ((makeH3Base te).map fun r => r.2).sum = h3Denom te from rfl]
    exact div_self hne
  · intro h
    have hne : ((fig2Denom tp rt : Int) : Rat) ≠ 0 :=
      ne_of_gt (by exact_mod_cast h)
    rw [fig2Agg, List.filter_map]
    rw [List.map_map]
    have hcong : ((fig2Base tp).filter
          ((fun r : Fig2Row => decide (r.recid = rt)) ∘ fun r : String × String × Int =>
            ({ recid := r.1, period := r.2.1, cnt := r.2.2
               sharePct := 100 * (r.2.2 : Rat) / (fig2Denom tp r.1 : Rat) } : Fig2Row))).map
          ((fun r : Fig2Row => r.sharePct) ∘ fun r : String × String × Int =>
            ({ recid := r.1, period := r.2.1, cnt := r.2.2
               sharePct := 100 * (r.2.2 : Rat) / (fig2Denom tp r.1 : Rat) } : Fig2Row))
        = ((fig2Base tp).filter fun r => decide (r.1 = rt)).map
            (fun r => 100 * (r.2.2 : Rat) / (fig2Denom tp rt : Rat)) := by
      refine List.map_congr_left ?_
      intro r hr
      have : r.1 = rt := by
        have := List.of_mem_filter hr
        simpa using this
      simp [Function.comp, this]
    rw [hcong]
    have hsplit : (((fig2Base tp).filter fun r => decide (r.1 = rt)).map
          fun r => 100 * (r.2.2 : Rat) / (fig2Denom tp rt : Rat))
        = ((((fig2Base tp).filter fun r => decide (r.1 = rt)).map fun r => r.2.2).map
            (fun c : Int => 100 * (c : Rat) / (fig2Denom tp rt : Rat))) := by
      rw [List.map_map]; rfl
    rw [hsplit, sum_map_mul_div]
    rw [show (((fig2Base tp).filter fun r => decide (r.1 = rt)).map fun r => r.2.2).sum
        = fig2Denom tp rt from rfl]
    rw [mul_div_assoc, div_self hne, mul_one]

theorem enaraFindHeader_none : ∀ sheet : List (List Cell),
    enaraFindHeader sheet = none ↔ ∀ row ∈ sheet, enaraHeaderTest row = false
  | [] => by simp [enaraFindHeader]
  | row :: rest => by
    by_cases h : enaraHeaderTest row
    · simp [enaraFindHeader, h]
    · have ih := enaraFindHeader_none rest
      simp only [enaraFindHeader, h, Bool.false_eq_true, if_false, Option.map_eq_none',
        List.mem_cons]
      rw [ih]
      constructor
      · intro hall r hr
        rcases hr with rfl | hr
        · exact Bool.eq_false_iff.mpr h
        · exact hall r hr
      · intro hall r hr
        exact hall r (Or.inr hr)

theorem enaraFindHeader_some : ∀ (sheet : List (List Cell)) (i : Nat),
    i < sheet.length → enaraHeaderTest (sheet.getD i []) = true →
    (∀ j, j < i → enaraHeaderTest (sheet.getD j []) = false) →
    enaraFindHeader sheet = some i
  | [], i, h, _, _ => by simp at h
  | row :: rest, 0, _, htest, _ => by
    simp only [List.getD_cons_zero] at htest
    simp [enaraFindHeader, htest]
  | row :: rest, i + 1, hlen, htest, hbefore => by
    have hrow : enaraHeaderTest row = false := by
      have := hbefore 0 (Nat.succ_pos i)
      simpa using this
    have hrec : enaraFindHeader rest = some i :=
      enaraFindHeader_some rest i (by simpa using hlen)
        (by simpa [List.getD_cons_succ] using htest)
        (fun j hj => by
          have := hbefore (j + 1) (by omega)
          simpa [List.getD_cons_succ] using this)
    simp [enaraFindHeader, hrow, hrec]

/-- C4: `clean_enara_3yr_excel` raises `ValueError` exactly when no sheet
row passes the year-header test (its non-null cells, joined with spaces,
containing both "2019" and "2020"); otherwise the first such row becomes
the header and only the rows below it are processed. -/
theorem enara_header_search (sheet : List (List Cell)) :
    ((∃ e, cleanEnara3yrExcel sheet = .error e) ↔ ∀ row ∈ sheet, enaraHeaderTest row = false)
    ∧ ∀ i, i < sheet.length → enaraHeaderTest (sheet.getD i []) = true →
        (∀ j, j < i → enaraHeaderTest (sheet.getD j []) = false) →
        cleanEnara3yrExcel sheet = .ok (enaraProcess (sheet.getD i []) (sheet.drop (i + 1))) := by
  constructor
  · constructor
    · rintro ⟨e, he⟩
      cases hfind : enaraFindHeader sheet with
      | none => exact (enaraFindHeader_none sheet).mp hfind
      | some i =>
        rw [cleanEnara3yrExcel, hfind] at he
        cases he
    · intro hall
      rw [cleanEnara3yrExcel, (enaraFindHeader_none sheet).mpr hall]
      exact ⟨_, rfl⟩
  · intro i h1 h2 h3
    rw [cleanEnara3yrExcel, enaraFindHeader_some sheet i h1 h2 h3]

/-- C8: `clean_kosis_prior_convictions` keeps exactly the numerically
parseable cells of its melted data rows as counts (non-parseable cells
are dropped), unlike `clean_police_education`, which keeps every cell as
a row with count `0` when it is not numeric. -/
theorem kosis_drops_nonnumeric (t : KosisRaw) (p : PoliceRaw) :
    ((cleanKosisPriorConvictions t).map fun r => r.cnt)
      = (colMajorCells t.yearCols.length (kosisDataRows t) (fun r => r.vals)).filterMap
          (fun c => (toNumericCell c).map ratTrunc)
    ∧ ((cleanPoliceEducation p).map fun r => r.cnt)
      = (colMajorCells p.valueCols.length p.rows (fun r => r.vals)).map
          (fun c => match toNumericCell c with | none => 0 | some q => ratTrunc q) := by
  constructor
  · simp only [cleanKosisPriorConvictions, colMajorCells, List.map_flatMap,
      List.map_filterMap, List.filterMap_flatMap, List.filterMap_map, Function.comp,
      Option.map_map]
    rfl
  · simp only [cleanPoliceEducation, colMajorCells, List.map_flatMap, List.map_map]
    rfl

/-- C7 counterexample: on the education label 전문대 the two classifiers
disagree — `edu_bucket` puts it in 기타/미상 while `bucket` puts it in
대학 이상 — so they do not induce the same partition on every label
string. -/
theorem eduBuckets_disagree :
    bucketsCorrespond (eduBucket "전문대") (visBucket "전문대") = false := by decide

/-- C7 amended: the two education classifiers assign corresponding
buckets on the label families the layouts use — labels starting with
대학, the exact labels 미상 and 기타, and the 고졸-이하 family (labels
starting with 고등학교/중학교/초등학교 or equal to 불취학) as long as the
label does not also contain 대학 or 전문대.  (On other strings, such as
전문대 or 무학, the classifiers may disagree.) -/
theorem eduBuckets_correspond_amended (x : String) :
    (strStarts x "대학" = true → bucketsCorrespond (eduBucket x) (visBucket x) = true)
    ∧ (x = "미상" ∨ x = "기타" → bucketsCorrespond (eduBucket x) (visBucket x) = true)
    ∧ ((strStarts x "고등학교" || strStarts x "중학교" || strStarts x "초등학교"
          || x == "불취학") = true →
        strHasSub x "대학" = false → strHasSub x "전문대" = false →
        bucketsCorrespond (eduBucket x) (visBucket x) = true) := by
  refine ⟨?_, ?_, ?_⟩
  · intro h
    have hsub : strHasSub x "대학" = true := hasSub_of_listStarts h
    rw [eduBucket, visBucket]
    simp only [h, hsub, Bool.true_or, Bool.or_true, if_true]
    decide
  · intro h
    rcases h with rfl | rfl <;> decide
  · intro h h1 h2
    have hs1 : strStarts x "대학" = false := by
      rcases Bool.eq_false_or_eq_true (strStarts x "대학") with h' | h'
      · have hx : strHasSub x "대학" = true := hasSub_of_listStarts h'
        rw [hx] at h1
        cases h1
      · exact h'
    have hs2 : strStarts x "대학원" = false := by
      rcases Bool.eq_false_or_eq_true (strStarts x "대학원") with h' | h'
      · have hx : listStarts "대학".data x.data = true := by
          have happ : "대학원".data = "대학".data ++ "원".data := by decide
          rw [strStarts, happ] at h'
          exact listStarts_of_append _ _ _ h'
        rw [show strStarts x "대학" = listStarts "대학".data x.data from rfl, hx] at hs1
        cases hs1
      · exact h'
    have hsub2 : strHasSub x "대학원" = false := by
      rcases Bool.eq_false_or_eq_true (strHasSub x "대학원") with h' | h'
      · have hx : hasSub "대학".data x.data = true := by
          have happ : "대학원".data = "대학".data ++ "원".data := by decide
          rw [strHasSub, happ] at h'
          exact hasSub_of_append _ _ _ h'
        rw [show strHasSub x "대학" = hasSub "대학".data x.data from rfl, hx] at h1
        cases h1
      · exact h'
    have hneq : (x == "미상" || x == "기타") = false := by
      rcases Bool.eq_false_or_eq_true (x == "미상" || x == "기타") with h' | h'
      · rcases Bool.or_eq_true_iff.mp h' with h'' | h''
        · have hx : x = "미상" := beq_iff_eq.mp h''
          subst hx
          exact absurd h (by decide)
        · have hx : x = "기타" := beq_iff_eq.mp h''
          subst hx
          exact absurd h (by decide)
      · exact h'
    rw [eduBucket, visBucket]
    simp only [hs1, hs2, h1, h2, hsub2, hneq, h, Bool.or_false, Bool.false_or,
      Bool.or_self, if_true, if_false, Bool.false_eq_true]
    decide

/-- Witness for C2: on a two-row tidy table the single `(동종, 1년)`
group row carries the summed count. -/
theorem makeH2_spec_witness :
    (⟨"동종", "1년", 5⟩ : H2Row).cnt
      = ((([⟨"절도", "동종", "1년", 3⟩, ⟨"사기", "동종", "1년", 2⟩] :
          List ProsTidyRow).filter fun x =>
            decide (x.recid = (⟨"동종", "1년", 5⟩ : H2Row).recid
              ∧ x.period = (⟨"동종", "1년", 5⟩ : H2Row).period)).map fun x => x.cnt).sum :=
  (makeH2_spec [⟨"절도", "동종", "1년", 3⟩, ⟨"사기", "동종", "1년", 2⟩]).2.2.1
    ⟨"동종", "1년", 5⟩ (by decide)

/-- Witness for C3: the three share columns sum to 1, 1 and 100 on
concrete positive-total tables. -/
theorem shares_normalized_witness :
    (((makeH1 [⟨"2023", "합계", "소계", "소계", "전과", "소계", 7⟩,
          ⟨"2023", "합계", "소계", "소계", "전과없음", "소계", 3⟩]).filter
        fun r => decide (r.year = "2023")).map fun r => r.share).sum = 1
    ∧ ((makeH3 [⟨"합계", "소계", "대학교졸업", 4⟩]).map fun r => r.share).sum = 1
    ∧ (((fig2Agg [⟨"절도", "동종재범", "1년이내", 5⟩]).filter
        fun r => decide (r.recid = "동종재범")).map fun r => r.sharePct).sum = 100 := by
  have h := shares_normalized
    [⟨"2023", "합계", "소계", "소계", "전과", "소계", 7⟩,
      ⟨"2023", "합계", "소계", "소계", "전과없음", "소계", 3⟩]
    [⟨"합계", "소계", "대학교졸업", 4⟩]
    [⟨"절도", "동종재범", "1년이내", 5⟩] "2023" "동종재범"
  exact ⟨h.1 (by decide), h.2.1 (by decide), h.2.2 (by decide)⟩

/-- Witness for C4: on a three-row sheet whose second row holds both year
labels, the cleaner succeeds with that row as the header and processes
exactly the rows below it. -/
theorem enara_header_search_witness :
    cleanEnara3yrExcel [[some "junk"], [some "연도", some "2019", some "2020"],
        [some "재복역기간3년이내", some "24.1", some "25.2"]]
      = .ok (enaraProcess ([[some "junk"], [some "연도", some "2019", some "2020"],
          [some "재복역기간3년이내", some "24.1", some "25.2"]].getD 1 [])
          ([[some "junk"], [some "연도", some "2019", some "2020"],
            [some "재복역기간3년이내", some "24.1", some "25.2"]].drop 2)) :=
  (enara_header_search _).2 1 (by decide) (by decide)
    (fun j hj => by
      have hj0 : j = 0 := by omega
      subst hj0
      decide)

/-- Witness for C6: on a three-crime table with `top_n = 2`, a kept total
dominates the dropped one. -/
theorem figTopCrimes_spec_witness :
    (⟨"절도", 3⟩ : CrimeTotal).cnt ≤ (⟨"강도", 5⟩ : CrimeTotal).cnt :=
  (figTopCrimes_spec [⟨"절도", "동종", "1년", 3⟩, ⟨"사기", "동종", "1년", 9⟩,
      ⟨"강도", "이종", "2년", 5⟩] 2).2.2.1
    ⟨"강도", 5⟩ (by decide) ⟨"절도", 3⟩ (by decide)

/-- Witness for the amended C7: the classifiers correspond on the label
고등학교졸업. -/
theorem eduBuckets_correspond_amended_witness :
    bucketsCorrespond (eduBucket "고등학교졸업") (visBucket "고등학교졸업") = true :=
  (eduBuckets_correspond_amended "고등학교졸업").2.2 (by decide) (by decide) (by decide)

end CriminalAnalysis
